import Mathlib

/-!
Shallow embedding of `packages/common/src/chaindata/queries/ValidatorPref.ts`:
the chain-query functions (`getCommission`, `getBondedAmount`, `getBlocked`,
`getRewardDestination`, ...) and the era-round scheduler `mainScorekeeperJob`.

The scheduler is modelled as a pure function from its inputs to the list of
observable effects it performs, in order: chain reads, round-state reads,
`startRound` / `endRound` invocations and progress-event emissions.  The
query functions are modelled over an environment that describes what the
underlying polkadot API calls return, where each call may also throw
(`Except.error`); a query returning `Except.ok` on every environment is the
formal statement that it never lets an exception escape.
-/

/-- A nomination target as pushed into `allCurrentTargets`: the source type is
`{name?: string; stash?: string; identity?: any}` (identity modelled as a
string). -/
structure Target where
  name : Option String := none
  stash : Option String := none
  identity : Option String := none
  deriving DecidableEq

/-- The payload emitted on the `jobStatusEmitter` under `jobProgress`.
`progress` is `Option Nat`: `some n` is the finite integer `Math.floor`
result, `none` models the JavaScript value `Infinity` that
`Math.floor((1/0) * 100)` produces when there are zero nominator groups. -/
structure ProgressEvent where
  name : String
  progress : Option Nat
  updated : Nat
  iteration : String
  deriving DecidableEq

/-- One observable effect of a `mainScorekeeperJob` invocation, in program
order.  `readActiveEra` is the `chaindata.getActiveEraIndex()` call,
`readLastNominatedEra` the `queries.getLastNominatedEraIndex()` store read,
`readCurrentTargets` the `queries.getCurrentTargets(bondedAddress)` read for
one nominator group, `callStartRound` records the `allCurrentTargets`
argument passed to `startRound`, and `emit` is a `jobStatusEmitter.emit`. -/
inductive Effect where
  | readActiveEra
  | readLastNominatedEra
  | readCurrentTargets (bondedAddress : String)
  | callEndRound
  | callStartRound (targets : List Target)
  | emit (channel : String) (event : ProgressEvent)
  deriving DecidableEq

/-- A configured nominator group; the scheduler only uses its
`bondedAddress`. -/
structure Nominator where
  bondedAddress : String
  deriving DecidableEq

/-- The two configuration values the scheduler reads:
`config.global.networkPrefix` and `config.scorekeeper.nominating`. -/
structure ScorekeeperConfig where
  networkPrefix : Int
  nominating : Bool
  deriving DecidableEq

/-- The fields of the `jobsMetadata` bundle that bear on the scheduler's
decision logic.  The remaining fields (`constraints`, `currentEra`, `bot`,
`handler`, the nominating capability) are opaque values threaded unchanged
into `startRound` / `endRound` and are not modelled. -/
structure jobsMetadata where
  ending : Bool
  config : ScorekeeperConfig
  nominatorGroups : List Nominator

/-- What the chain and the round-state store answer during one invocation:
`getActiveEraIndex()` returns the pair `[activeEra, eraErr]`, the store read
returns `lastNominatedEraIndex` (after the source's `Number(...)`
conversion), and `currentTargets a` is what `getCurrentTargets a` returns. -/
structure ChainEnv where
  activeEra : Int
  eraErr : Option String
  lastNominatedEraIndex : Int
  currentTargets : String → List Target

/-- `config.global.networkPrefix == 0 ? 1 : 4` (line 344). -/
def eraBufferOf (networkPrefix : Int) : Int :=
  if networkPrefix == 0 then 1 else 4

/-- `Math.floor((processed / total) * 100)` on JavaScript numbers: for
`total > 0` this is the floor of the exact rational, i.e. natural division;
for `total = 0` the division yields `Infinity`, which `Math.floor` keeps, so
no finite integer results (modelled `none`). -/
def jsFloorPercent (processed total : Nat) : Option Nat :=
  if total = 0 then none else some (processed * 100 / total)

/-- The `readCurrentTargets` effects of the `for (const nominator of
nominatorGroups)` loop (lines 367-372), in iteration order. -/
def readTargetEffects (md : jobsMetadata) : List Effect :=
  md.nominatorGroups.map fun n => Effect.readCurrentTargets n.bondedAddress

/-- `allCurrentTargets`: the per-group target lists flattened by
`allCurrentTargets.push(...currentTargets)` (line 371). -/
def flattenedTargets (md : jobsMetadata) (env : ChainEnv) : List Target :=
  (md.nominatorGroups.map fun n => env.currentTargets n.bondedAddress).flatten

/-- Lines 374-412: `if (!allCurrentTargets.length)` call `startRound` alone,
otherwise call `endRound` and then `startRound`. -/
def roundCalls (allCurrentTargets : List Target) : List Effect :=
  if allCurrentTargets.length = 0 then
    [Effect.callStartRound allCurrentTargets]
  else
    [Effect.callEndRound, Effect.callStartRound allCurrentTargets]

/-- The event built at lines 417-427: `processedNominatorGroups` was
incremented exactly once (from 0 to 1), `totalNominatorGroups` is
`nominatorGroups.length`, and the iteration label interpolates the counter
value 1. -/
def progressEventOf (md : jobsMetadata) (now : Nat) : ProgressEvent :=
  { name := "Main Scorekeeper Job"
    progress := jsFloorPercent 1 md.nominatorGroups.length
    updated := now
    iteration := "Processed nominator group 1" }

/-- The body of the `if (isNominationRound)` branch (lines 348-428): return
early when `config.scorekeeper.nominating` is off, otherwise read every
group's current targets, run the round calls on the flattened list, and emit
exactly one `jobProgress` event. -/
def roundBody (md : jobsMetadata) (env : ChainEnv) (now : Nat) : List Effect :=
  if !md.config.nominating then
    []
  else
    readTargetEffects md ++ roundCalls (flattenedTargets md env) ++
      [Effect.emit "jobProgress" (progressEventOf md now)]

/-- `mainScorekeeperJob` (lines 317-429) as its trace of observable effects:
return `[]` at the `ending` guard; otherwise read the active era and stop if
the read carried an error; otherwise read the last-nominated era, compute
`isNominationRound = lastNominatedEraIndex <= activeEra - eraBuffer`, and run
the round body only when it holds. -/
def mainScorekeeperJob (md : jobsMetadata) (env : ChainEnv) (now : Nat) :
    List Effect :=
  if md.ending then
    []
  else
    Effect.readActiveEra ::
      match env.eraErr with
      | some _ => []
      | none =>
          Effect.readLastNominatedEra ::
            if env.lastNominatedEraIndex ≤
                env.activeEra - eraBufferOf md.config.networkPrefix then
              roundBody md env now
            else
              []

/-- Whether an effect is a `startRound` or `endRound` invocation. -/
def isCallEffect : Effect → Bool
  | Effect.callEndRound => true
  | Effect.callStartRound _ => true
  | _ => false

/-- The subtrace of `startRound` / `endRound` invocations, in order. -/
def callEffects (tr : List Effect) : List Effect :=
  tr.filter isCallEffect

/-- The emitted events of a trace, each with its channel name, in order. -/
def progressEmits (tr : List Effect) : List (String × ProgressEvent) :=
  tr.filterMap fun e =>
    match e with
    | Effect.emit c ev => some (c, ev)
    | _ => none

/-- The four conditions under which an invocation reaches the round body:
not ending, era read succeeded, era-eligibility holds, nominating enabled. -/
def nonNoOpRun (md : jobsMetadata) (env : ChainEnv) : Prop :=
  md.ending = false ∧ env.eraErr = none ∧
    env.lastNominatedEraIndex ≤
      env.activeEra - eraBufferOf md.config.networkPrefix ∧
    md.config.nominating = true

/-!
The query layer.  Every exported function wraps its whole body in
`try { await chaindata.checkApiConnection(); ... } catch (e) { ... }`.  The
body is embedded as a computation in `Except JsErr` in which every underlying
API call may throw, and the `try`/`catch` as `jsTryCatch`; the exported
function therefore has type `Except JsErr result`, and `Except.ok` on every
environment is exactly the guarantee that no exception escapes.
-/

/-- A thrown JavaScript exception value. -/
structure JsErr where
  message : String
  deriving DecidableEq

/-- `JSON.stringify(e)` applied to a caught exception; only its presence as a
reason string matters to the claims, not its exact shape. -/
def jsonStringify (e : JsErr) : String :=
  e.message

/-- The `try { body } catch (e) { handler }` statement: a thrown exception is
caught and mapped to the handler's return value, so the result never carries
an error. -/
def jsTryCatch {α : Type} (body : Except JsErr α) (handler : JsErr → α) :
    Except JsErr α :=
  match body with
  | Except.ok a => Except.ok a
  | Except.error e => Except.ok (handler e)

/-- The record answered by `api.query.staking.validators(validator)`:
`commission.toNumber()` and the `toString()` of the `blocked` field (`none`
when the field is `undefined`, so `?.toString()` yields `undefined`). -/
structure ValidatorPrefs where
  commission : Int
  blocked : Option String
  deriving DecidableEq

/-- The codec answered by `api.query.staking.bonded(stash)`: its `isNone`
flag and its `toString()` rendering. -/
structure BondedAddress where
  isNone : Bool
  str : String
  deriving DecidableEq

/-- The codec answered by `api.query.staking.ledger(...)`: its `isNone` flag
and `toJSON().active`. -/
structure StakingLedger where
  isNone : Bool
  active : Int
  deriving DecidableEq

/-- The codec answered by `api.query.staking.payee(stash)`:
`toJSON().account` (`none` when absent) and its `toString()` rendering. -/
structure PayeeData where
  account : Option String
  str : String
  deriving DecidableEq

/-- The codec answered by `api.query.system.account(address)`:
`data.free.toString()` after optional chaining (`none` when some link of
`accountData?.data?.free` is `undefined`). -/
structure AccountData where
  free : Option String
  deriving DecidableEq

/-- One entry of `eraStakers.others`: `who.toString()` and
`value.toString()`. -/
structure OtherStake where
  who : String
  value : String
  deriving DecidableEq

/-- The codec answered by `api.query.staking.erasStakers(era, validator)`:
the `toString()` renderings that `getExposure` feeds to `parseFloat`. -/
structure ErasStakers where
  total : String
  own : String
  others : List OtherStake
  deriving DecidableEq

/-- One entry of `eraStakers.others.toJSON()` as read by `getExposureAt`:
`who.toString()` and the already-numeric `value`. -/
structure OtherStakeJson where
  who : String
  value : Rat
  deriving DecidableEq

/-- The codec used by `getExposureAt`, whose `others` come from
`toJSON()`. -/
structure ErasStakersAt where
  total : String
  own : String
  others : List OtherStakeJson
  deriving DecidableEq

/-- `apiAt.query.staking.erasValidatorPrefs(...)` as read by
`getCommissionInEra`: `commission?.toNumber()` after optional chaining. -/
structure ErasValidatorPrefs where
  commission : Option Int
  deriving DecidableEq

/-- What the underlying API answers during a query: each field is one
underlying call, which may throw (`Except.error`) or — through the source's
optional chaining on `chaindata?.api?` — come back `undefined` (`none`).
`parseFloat` models the total, never-throwing JavaScript coercion (its NaN
and the total `/` on JavaScript numbers are collapsed into total `Rat`
operations: exception behaviour, which the claims are about, is
preserved). -/
structure ApiEnv where
  checkApiConnection : Except JsErr Unit
  validators : String → Except JsErr (Option ValidatorPrefs)
  bonded : String → Except JsErr (Option BondedAddress)
  ledger : String → Except JsErr (Option StakingLedger)
  payee : String → Except JsErr (Option PayeeData)
  queuedKeys : Except JsErr (Option (List (String × String)))
  nextKeys : String → Except JsErr (Option (Option (List (String × String))))
  account : String → Except JsErr (Option AccountData)
  getDenom : Except JsErr (Option Rat)
  erasStakers : Int → String → Except JsErr (Option ErasStakers)
  parseFloat : String → Rat

/-- The calls `getCommissionInEra`, `getRewardDestinationAt` and
`getExposureAt` make on their `apiAt` argument. -/
structure ApiAtEnv where
  erasValidatorPrefs : Int → String → Except JsErr (Option ErasValidatorPrefs)
  payee : String → Except JsErr PayeeData
  erasStakers : Int → String → Except JsErr (Option ErasStakersAt)

/-- `NumberResult` from `types.ts`: a number together with an optional reason
string. -/
def NumberResult : Type :=
  Int × Option String

/-- `getCommission` (lines 5-20). -/
def getCommission (env : ApiEnv) (validator : String) :
    Except JsErr NumberResult :=
  jsTryCatch
    (do
      let _ ← env.checkApiConnection
      let prefs ← env.validators validator
      match prefs with
      | none => pure (0, some "No preferences found.")
      | some p => pure (p.commission, none))
    (fun e => (0, some (jsonStringify e)))

/-- `getCommissionInEra` (lines 22-39): `prefs?.commission?.toNumber()`, with
`null` from the catch. -/
def getCommissionInEra (env : ApiEnv) (apiAt : ApiAtEnv) (eraIndex : Int)
    (validator : String) : Except JsErr (Option Int) :=
  jsTryCatch
    (do
      let _ ← env.checkApiConnection
      let prefs ← apiAt.erasValidatorPrefs eraIndex validator
      match prefs with
      | none => pure none
      | some p => pure p.commission)
    (fun _ => none)

/-- `getBlocked` (lines 41-53): `rawPrefs?.blocked?.toString() === "true"`,
with `false` from the catch. -/
def getBlocked (env : ApiEnv) (validator : String) : Except JsErr Bool :=
  jsTryCatch
    (do
      let _ ← env.checkApiConnection
      let rawPrefs ← env.validators validator
      match rawPrefs with
      | none => pure false
      | some p =>
          match p.blocked with
          | none => pure false
          | some s => pure (s == "true"))
    (fun _ => false)

/-- `getBondedAmount` (lines 55-78): the `!bondedAddress ||
bondedAddress.isNone` and `!ledger || ledger.isNone` guards, their reason
strings, and the success pair `[ledger.toJSON().active, null]`. -/
def getBondedAmount (env : ApiEnv) (stash : String) :
    Except JsErr NumberResult :=
  jsTryCatch
    (do
      let _ ← env.checkApiConnection
      let bondedAddress ← env.bonded stash
      match bondedAddress with
      | none => pure (0, some "Not bonded to any account.")
      | some b =>
          if b.isNone then
            pure (0, some "Not bonded to any account.")
          else do
            let ledger ← env.ledger b.str
            match ledger with
            | none => pure (0, some "Ledger is empty.")
            | some l =>
                if l.isNone then
                  pure (0, some "Ledger is empty.")
                else
                  pure (l.active, none))
    (fun e => (0, some (jsonStringify e)))

/-- `getControllerFromStash` (lines 80-95). -/
def getControllerFromStash (env : ApiEnv) (stash : String) :
    Except JsErr (Option String) :=
  jsTryCatch
    (do
      let _ ← env.checkApiConnection
      let controller ← env.bonded stash
      match controller with
      | none => pure none
      | some c => pure (some c.str))
    (fun _ => none)

/-- `getRewardDestination` (lines 97-114): the body calls
`rewardDestination.toJSON()` with no null guard, so an `undefined` answer
(optional chaining on `chaindata.api?`) raises a TypeError inside the `try`
and the catch returns `null`. -/
def getRewardDestination (env : ApiEnv) (stash : String) :
    Except JsErr (Option String) :=
  jsTryCatch
    (do
      let _ ← env.checkApiConnection
      let rewardDestination ← env.payee stash
      match rewardDestination with
      | none => throw { message := "TypeError: toJSON of undefined" }
      | some p =>
          match p.account with
          | some acct => pure (some acct)
          | none => pure (some p.str))
    (fun _ => none)

/-- `getRewardDestinationAt` (lines 116-133): same body over `apiAt`, which
is dereferenced without optional chaining. -/
def getRewardDestinationAt (env : ApiEnv) (apiAt : ApiAtEnv) (stash : String) :
    Except JsErr (Option String) :=
  jsTryCatch
    (do
      let _ ← env.checkApiConnection
      let rewardDestination ← apiAt.payee stash
      match rewardDestination.account with
      | some acct => pure (some acct)
      | none => pure (some rewardDestination.str))
    (fun _ => none)

/-- A `QueuedKey` entry: the validator address and the hex keys. -/
structure QueuedKey where
  address : String
  keys : String
  deriving DecidableEq

/-- `getQueuedKeys` (lines 140-160): `[]` for an `undefined` answer and from
the catch, otherwise the mapped entries. -/
def getQueuedKeys (env : ApiEnv) : Except JsErr (List QueuedKey) :=
  jsTryCatch
    (do
      let _ ← env.checkApiConnection
      let queuedKeys ← env.queuedKeys
      match queuedKeys with
      | none => pure []
      | some ks => pure (ks.map fun vk => { address := vk.1, keys := vk.2 }))
    (fun _ => [])

/-- The `NextKeys` result: the key/value fields of the non-empty
`toJSON()` object. -/
structure NextKeys where
  keys : List (String × String)
  deriving DecidableEq

/-- `getNextKeys` (lines 174-198): `null` for an `undefined` answer, a
non-object `toJSON()`, an empty object, or a caught exception (the catch
falls through to the trailing `return null`). -/
def getNextKeys (env : ApiEnv) (stash : String) :
    Except JsErr (Option NextKeys) :=
  jsTryCatch
    (do
      let _ ← env.checkApiConnection
      let nextKeysRaw ← env.nextKeys stash
      match nextKeysRaw with
      | none => pure none
      | some nextKeysData =>
          match nextKeysData with
          | none => pure none
          | some fields =>
              if fields.length > 0 then
                pure (some { keys := fields })
              else
                pure none)
    (fun _ => none)

/-- The `Balance` result: `free` as a string (possibly `undefined` through
the optional chain). -/
structure Balance where
  free : Option String
  deriving DecidableEq

/-- `getBalance` (lines 204-222). -/
def getBalance (env : ApiEnv) (address : String) :
    Except JsErr (Option Balance) :=
  jsTryCatch
    (do
      let _ ← env.checkApiConnection
      let accountData ← env.account address
      match accountData with
      | none => pure none
      | some a => pure (some { free := a.free }))
    (fun _ => none)

/-- One entry of an `Exposure`'s `others`. -/
structure Stake where
  address : String
  bonded : Rat
  deriving DecidableEq

/-- The `Exposure` result of `getExposure` / `getExposureAt`. -/
structure Exposure where
  total : Rat
  own : Rat
  others : List Stake
  deriving DecidableEq

/-- `getExposure` (lines 235-273): the `if (eraStakers && denom)` truthiness
guard (an `undefined` or zero denominator falls through to `return null`),
then `parseFloat(x.toString()) / denom` on each amount. -/
def getExposure (env : ApiEnv) (eraIndex : Int) (validator : String) :
    Except JsErr (Option Exposure) :=
  jsTryCatch
    (do
      let _ ← env.checkApiConnection
      let denom ← env.getDenom
      let eraStakers ← env.erasStakers eraIndex validator
      match eraStakers, denom with
      | some st, some d =>
          if d == 0 then
            pure none
          else
            pure (some
              { total := env.parseFloat st.total / d
                own := env.parseFloat st.own / d
                others := st.others.map fun s =>
                  { address := s.who, bonded := env.parseFloat s.value / d } })
      | _, _ => pure none)
    (fun _ => none)

/-- `getExposureAt` (lines 275-309): same guard over `apiAt`, with `others`
taken from `toJSON()` so each `value` is already numeric. -/
def getExposureAt (env : ApiEnv) (apiAt : ApiAtEnv) (eraIndex : Int)
    (validator : String) : Except JsErr (Option Exposure) :=
  jsTryCatch
    (do
      let _ ← env.checkApiConnection
      let denom ← env.getDenom
      let eraStakers ← apiAt.erasStakers eraIndex validator
      match eraStakers, denom with
      | some st, some d =>
          if d == 0 then
            pure none
          else
            pure (some
              { total := env.parseFloat st.total / d
                own := env.parseFloat st.own / d
                others := st.others.map fun s =>
                  { address := s.who, bonded := s.value / d } })
      | _, _ => pure none)
    (fun _ => none)

/-!  Helper lemmas about traces. -/

/-- `eraBufferOf` written with propositional equality on the prefix. -/
theorem eraBufferOf_eq (p : Int) :
    eraBufferOf p = if p = 0 then (1 : Int) else 4 := by
  simp [eraBufferOf]

/-- The per-group target reads contribute no `startRound` / `endRound`
invocation to a trace. -/
theorem filter_isCall_readTargets (l : List Nominator) :
    (l.map fun n => Effect.readCurrentTargets n.bondedAddress).filter
      isCallEffect = [] := by
  induction l with
  | nil => rfl
  | cons a t ih => simp [isCallEffect, ih]

/-- The per-group target reads emit no event. -/
theorem progressEmits_readMap (l : List Nominator) :
    progressEmits (l.map fun n => Effect.readCurrentTargets n.bondedAddress) =
      [] := by
  induction l with
  | nil => rfl
  | cons a t ih => exact ih

/-- `progressEmits` distributes over concatenation. -/
theorem progressEmits_append (l₁ l₂ : List Effect) :
    progressEmits (l₁ ++ l₂) = progressEmits l₁ ++ progressEmits l₂ := by
  simp [progressEmits, List.filterMap_append]

/-- The round calls emit no event. -/
theorem progressEmits_roundCalls (ts : List Target) :
    progressEmits (roundCalls ts) = [] := by
  unfold roundCalls
  split <;> rfl

/-!  Claim theorems about the scheduler. -/

/-- C1: with `ending` false and a successful era read, `mainScorekeeperJob`
runs the round body exactly when `lastNominatedEraIndex <= activeEra -
eraBuffer`, where the buffer is 1 for `networkPrefix = 0` and 4 for every
other prefix — the eligibility gate is the spec's formula. -/
theorem eligibility_decision_eq_spec_formula (md : jobsMetadata)
    (env : ChainEnv) (now : Nat) (hend : md.ending = false)
    (herr : env.eraErr = none) :
    mainScorekeeperJob md env now =
      Effect.readActiveEra :: Effect.readLastNominatedEra ::
        (if env.lastNominatedEraIndex ≤
            env.activeEra -
              (if md.config.networkPrefix = 0 then (1 : Int) else 4) then
          roundBody md env now
        else
          []) := by
  simp [mainScorekeeperJob, hend, herr, eraBufferOf_eq]

/-- An input on which the C1 theorem's hypotheses hold. -/
def c1Md : jobsMetadata :=
  { ending := false
    config := { networkPrefix := 0, nominating := true }
    nominatorGroups := [] }

/-- The chain answers for the C1 witness. -/
def c1Env : ChainEnv :=
  { activeEra := 100
    eraErr := none
    lastNominatedEraIndex := 95
    currentTargets := fun _ => [] }

/-- C1 witness: the eligibility characterization at a concrete input. -/
theorem eligibility_decision_eq_spec_formula_witness :
    mainScorekeeperJob c1Md c1Env 0 =
      Effect.readActiveEra :: Effect.readLastNominatedEra ::
        (if c1Env.lastNominatedEraIndex ≤
            c1Env.activeEra -
              (if c1Md.config.networkPrefix = 0 then (1 : Int) else 4) then
          roundBody c1Md c1Env 0
        else
          []) :=
  eligibility_decision_eq_spec_formula c1Md c1Env 0 rfl rfl

/-- C5: with `ending = true` the invocation performs no effect at all: no
chain read, no store read, no `startRound` / `endRound`, no emission. -/
theorem ending_noop (md : jobsMetadata) (env : ChainEnv) (now : Nat)
    (h : md.ending = true) :
    mainScorekeeperJob md env now = [] := by
  simp [mainScorekeeperJob, h]

/-- An input with `ending = true`. -/
def c5Md : jobsMetadata :=
  { ending := true
    config := { networkPrefix := 0, nominating := true }
    nominatorGroups := [Nominator.mk "addr5"] }

/-- Chain answers for the C5 witness. -/
def c5Env : ChainEnv :=
  { activeEra := 50
    eraErr := none
    lastNominatedEraIndex := 1
    currentTargets := fun _ => [] }

/-- C5 witness: the empty trace at a concrete ending invocation. -/
theorem ending_noop_witness : mainScorekeeperJob c5Md c5Env 0 = [] :=
  ending_noop c5Md c5Env 0 rfl

/-- C6: when `getActiveEraIndex` carries an error the trace is the failed
read alone: no round call, no emission, nothing written. -/
theorem era_read_error_aborts (md : jobsMetadata) (env : ChainEnv) (now : Nat)
    (e : String) (hend : md.ending = false) (herr : env.eraErr = some e) :
    mainScorekeeperJob md env now = [Effect.readActiveEra] ∧
      callEffects (mainScorekeeperJob md env now) = [] ∧
      progressEmits (mainScorekeeperJob md env now) = [] := by
  have htr : mainScorekeeperJob md env now = [Effect.readActiveEra] := by
    simp [mainScorekeeperJob, hend, herr]
  exact ⟨htr, by rw [htr]; rfl, by rw [htr]; rfl⟩

/-- An input for the C6 witness. -/
def c6Md : jobsMetadata :=
  { ending := false
    config := { networkPrefix := 0, nominating := true }
    nominatorGroups := [Nominator.mk "addr6"] }

/-- Chain answers whose era read fails. -/
def c6Env : ChainEnv :=
  { activeEra := 0
    eraErr := some "API connection error"
    lastNominatedEraIndex := 0
    currentTargets := fun _ => [] }

/-- C6 witness: the aborted trace at a concrete failing read. -/
theorem era_read_error_aborts_witness :
    mainScorekeeperJob c6Md c6Env 0 = [Effect.readActiveEra] ∧
      callEffects (mainScorekeeperJob c6Md c6Env 0) = [] ∧
      progressEmits (mainScorekeeperJob c6Md c6Env 0) = [] :=
  era_read_error_aborts c6Md c6Env 0 "API connection error" rfl rfl

/-- C7: an eligible invocation with `config.scorekeeper.nominating` off
returns after the two reads: no `startRound` / `endRound`, no emission. -/
theorem nominating_disabled_skips_round (md : jobsMetadata) (env : ChainEnv)
    (now : Nat) (hend : md.ending = false) (herr : env.eraErr = none)
    (helig : env.lastNominatedEraIndex ≤
      env.activeEra - eraBufferOf md.config.networkPrefix)
    (hnom : md.config.nominating = false) :
    mainScorekeeperJob md env now =
        [Effect.readActiveEra, Effect.readLastNominatedEra] ∧
      callEffects (mainScorekeeperJob md env now) = [] ∧
      progressEmits (mainScorekeeperJob md env now) = [] := by
  have htr : mainScorekeeperJob md env now =
      [Effect.readActiveEra, Effect.readLastNominatedEra] := by
    simp [mainScorekeeperJob, roundBody, hend, herr, helig, hnom]
  exact ⟨htr, by rw [htr]; rfl, by rw [htr]; rfl⟩

/-- An eligible input with nominating disabled. -/
def c7Md : jobsMetadata :=
  { ending := false
    config := { networkPrefix := 2, nominating := false }
    nominatorGroups := [Nominator.mk "addr7"] }

/-- Chain answers for the C7 witness. -/
def c7Env : ChainEnv :=
  { activeEra := 100
    eraErr := none
    lastNominatedEraIndex := 90
    currentTargets := fun _ => [Target.mk (some "v") (some "s") none] }

/-- C7 witness: the skipped round at a concrete eligible input. -/
theorem nominating_disabled_skips_round_witness :
    mainScorekeeperJob c7Md c7Env 0 =
        [Effect.readActiveEra, Effect.readLastNominatedEra] ∧
      callEffects (mainScorekeeperJob c7Md c7Env 0) = [] ∧
      progressEmits (mainScorekeeperJob c7Md c7Env 0) = [] :=
  nominating_disabled_skips_round c7Md c7Env 0 rfl rfl (by decide) rfl

/-- The full trace of an invocation that reaches the nominating-enabled
round body. -/
theorem trace_of_round (md : jobsMetadata) (env : ChainEnv) (now : Nat)
    (hend : md.ending = false) (herr : env.eraErr = none)
    (helig : env.lastNominatedEraIndex ≤
      env.activeEra - eraBufferOf md.config.networkPrefix)
    (hnom : md.config.nominating = true) :
    mainScorekeeperJob md env now =
      Effect.readActiveEra :: Effect.readLastNominatedEra ::
        (readTargetEffects md ++ roundCalls (flattenedTargets md env) ++
          [Effect.emit "jobProgress" (progressEventOf md now)]) := by
  simp [mainScorekeeperJob, roundBody, hend, herr, helig, hnom]

/-- C2: in the eligible, nominating-enabled branch the `startRound` /
`endRound` subtrace is `[startRound]` when the flattened `CurrentTargets`
list is empty and `[endRound, startRound]` — end first, then start, each
exactly once — when it is not. -/
theorem start_end_round_call_order (md : jobsMetadata) (env : ChainEnv)
    (now : Nat) (hend : md.ending = false) (herr : env.eraErr = none)
    (helig : env.lastNominatedEraIndex ≤
      env.activeEra - eraBufferOf md.config.networkPrefix)
    (hnom : md.config.nominating = true) :
    (flattenedTargets md env = [] →
        callEffects (mainScorekeeperJob md env now) =
          [Effect.callStartRound (flattenedTargets md env)]) ∧
      (flattenedTargets md env ≠ [] →
        callEffects (mainScorekeeperJob md env now) =
          [Effect.callEndRound,
            Effect.callStartRound (flattenedTargets md env)]) := by
  have htr := trace_of_round md env now hend herr helig hnom
  constructor
  · intro hflat
    rw [htr]
    simp [callEffects, List.filter_append, readTargetEffects,
      filter_isCall_readTargets, isCallEffect, roundCalls, hflat]
  · intro hflat
    rw [htr]
    simp [callEffects, List.filter_append, readTargetEffects,
      filter_isCall_readTargets, isCallEffect, roundCalls,
      List.length_eq_zero, hflat]

/-- An input whose single nominator group has a current target, so the round
is considered active. -/
def c2Md : jobsMetadata :=
  { ending := false
    config := { networkPrefix := 2, nominating := true }
    nominatorGroups := [Nominator.mk "addr2"] }

/-- Chain answers for the C2 witness: one non-empty target list. -/
def c2Env : ChainEnv :=
  { activeEra := 100
    eraErr := none
    lastNominatedEraIndex := 90
    currentTargets := fun _ => [Target.mk (some "val1") (some "stash1") none] }

/-- C2 witness: end-then-start at a concrete input with a non-empty combined
target list. -/
theorem start_end_round_call_order_witness :
    callEffects (mainScorekeeperJob c2Md c2Env 0) =
      [Effect.callEndRound,
        Effect.callStartRound (flattenedTargets c2Md c2Env)] :=
  (start_end_round_call_order c2Md c2Env 0 rfl rfl (by decide) rfl).2
    (by decide)

/-- C3 counterexample input: eligible, nominating enabled, and an empty
`nominatorGroups` collection. -/
def c3Md : jobsMetadata :=
  { ending := false
    config := { networkPrefix := 0, nominating := true }
    nominatorGroups := [] }

/-- Chain answers for the C3 counterexample. -/
def c3Env : ChainEnv :=
  { activeEra := 100
    eraErr := none
    lastNominatedEraIndex := 95
    currentTargets := fun _ => [] }

/-- C3 counterexample: at a non-ending, successfully-read, eligible,
nominating-enabled invocation whose `nominatorGroups` is empty, the code is
not a no-op — `startRound` is invoked (once, with the empty flattened target
list) and one `jobProgress` event is emitted — contrary to the claim that
neither round call happens and zero progress events are emitted. -/
theorem empty_groups_not_noop_cex :
    nonNoOpRun c3Md c3Env ∧ c3Md.nominatorGroups = [] ∧
      callEffects (mainScorekeeperJob c3Md c3Env 0) =
        [Effect.callStartRound []] ∧
      progressEmits (mainScorekeeperJob c3Md c3Env 0) =
        [("jobProgress",
          { name := "Main Scorekeeper Job", progress := none, updated := 0,
            iteration := "Processed nominator group 1" })] :=
  ⟨⟨rfl, rfl, by decide, rfl⟩, rfl, rfl, rfl⟩

/-- C3 as amended: with `ending` false, a successful era read, eligibility,
nominating enabled and an empty `nominatorGroups` collection, the invocation
is not a no-op: its trace is the two reads, then exactly one `startRound`
call carrying the empty target list (and no `endRound`), then exactly one
`jobProgress` event whose `progress` is the non-finite result of dividing by
zero groups. -/
theorem empty_groups_round_behavior (md : jobsMetadata) (env : ChainEnv)
    (now : Nat) (hend : md.ending = false) (herr : env.eraErr = none)
    (helig : env.lastNominatedEraIndex ≤
      env.activeEra - eraBufferOf md.config.networkPrefix)
    (hnom : md.config.nominating = true)
    (hempty : md.nominatorGroups = []) :
    mainScorekeeperJob md env now =
      [Effect.readActiveEra, Effect.readLastNominatedEra,
        Effect.callStartRound [],
        Effect.emit "jobProgress"
          { name := "Main Scorekeeper Job", progress := none, updated := now,
            iteration := "Processed nominator group 1" }] := by
  rw [trace_of_round md env now hend herr helig hnom]
  simp [readTargetEffects, flattenedTargets, roundCalls, progressEventOf,
    jsFloorPercent, hempty]

/-- C3 witness: the amended behaviour at a concrete empty-groups input. -/
theorem empty_groups_round_behavior_witness :
    mainScorekeeperJob c3Md c3Env 5 =
      [Effect.readActiveEra, Effect.readLastNominatedEra,
        Effect.callStartRound [],
        Effect.emit "jobProgress"
          { name := "Main Scorekeeper Job", progress := none, updated := 5,
            iteration := "Processed nominator group 1" }] :=
  empty_groups_round_behavior c3Md c3Env 5 rfl rfl (by decide) rfl rfl

/-- C4 counterexample input: a non-no-op invocation with zero nominator
groups. -/
def c4Md : jobsMetadata :=
  { ending := false
    config := { networkPrefix := 2, nominating := true }
    nominatorGroups := [] }

/-- Chain answers for the C4 counterexample. -/
def c4Env : ChainEnv :=
  { activeEra := 100
    eraErr := none
    lastNominatedEraIndex := 90
    currentTargets := fun _ => [] }

/-- C4 counterexample: a non-no-op invocation (ending false, era read
succeeds, eligible, nominating enabled) with `totalGroups = 0` emits one
`jobProgress` event whose `progress` is `Math.floor((1/0)*100) = Infinity`
(modelled `none`), hence not an integer in the range 0 to 100 as the claim
states; it also shows such an invocation is not treated as a no-op. -/
theorem progress_infinity_cex :
    nonNoOpRun c4Md c4Env ∧
      progressEmits (mainScorekeeperJob c4Md c4Env 3) =
        [("jobProgress",
          { name := "Main Scorekeeper Job", progress := none, updated := 3,
            iteration := "Processed nominator group 1" })] :=
  ⟨⟨rfl, rfl, by decide, rfl⟩, rfl⟩

/-- C4 as amended: every non-no-op invocation emits exactly one event, under
event name `jobProgress`; when `totalGroups > 0` its `progress` equals
`floor(1/totalGroups*100) = 100 / totalGroups`, an integer between 0 and
100; when `totalGroups = 0` its `progress` is the non-finite
`Math.floor(Infinity)`; and every other (no-op) invocation emits zero
events. -/
theorem progress_event_emission (md : jobsMetadata) (env : ChainEnv)
    (now : Nat) :
    (nonNoOpRun md env →
        progressEmits (mainScorekeeperJob md env now) =
          [("jobProgress", progressEventOf md now)]) ∧
      (¬ nonNoOpRun md env →
        progressEmits (mainScorekeeperJob md env now) = []) ∧
      (0 < md.nominatorGroups.length →
        (progressEventOf md now).progress =
            some (100 / md.nominatorGroups.length) ∧
          100 / md.nominatorGroups.length ≤ 100) ∧
      (md.nominatorGroups.length = 0 →
        (progressEventOf md now).progress = none) := by
  refine ⟨?_, ?_, ?_, ?_⟩
  · rintro ⟨hend, herr, helig, hnom⟩
    rw [trace_of_round md env now hend herr helig hnom]
    have h1 : progressEmits (readTargetEffects md) = [] :=
      progressEmits_readMap md.nominatorGroups
    have h2 := progressEmits_roundCalls (flattenedTargets md env)
    calc
      progressEmits (Effect.readActiveEra :: Effect.readLastNominatedEra ::
            (readTargetEffects md ++ roundCalls (flattenedTargets md env) ++
              [Effect.emit "jobProgress" (progressEventOf md now)]))
          = progressEmits (readTargetEffects md ++
              roundCalls (flattenedTargets md env) ++
              [Effect.emit "jobProgress" (progressEventOf md now)]) := rfl
      _ = progressEmits (readTargetEffects md ++
              roundCalls (flattenedTargets md env)) ++
            progressEmits
              [Effect.emit "jobProgress" (progressEventOf md now)] :=
          progressEmits_append _ _
      _ = (progressEmits (readTargetEffects md) ++
              progressEmits (roundCalls (flattenedTargets md env))) ++
            [("jobProgress", progressEventOf md now)] := by
          rw [progressEmits_append]
          rfl
      _ = [("jobProgress", progressEventOf md now)] := by
          rw [h1, h2]
          rfl
  · intro h
    by_cases hend : md.ending = true
    · simp [mainScorekeeperJob, hend, progressEmits]
    · have hend' : md.ending = false := by
        cases hb : md.ending
        · rfl
        · exact absurd hb hend
      rcases herr : env.eraErr with _ | e
      · by_cases helig : env.lastNominatedEraIndex ≤
            env.activeEra - eraBufferOf md.config.networkPrefix
        · by_cases hnom : md.config.nominating = true
          · exact absurd ⟨hend', herr, helig, hnom⟩ h
          · have hnom' : md.config.nominating = false := by
              cases hb : md.config.nominating
              · rfl
              · exact absurd hb hnom
            simp [mainScorekeeperJob, roundBody, hend', herr, helig, hnom',
              progressEmits]
        · simp [mainScorekeeperJob, hend', herr, helig, progressEmits]
      · simp [mainScorekeeperJob, hend', herr, progressEmits]
  · intro hpos
    have hne : md.nominatorGroups.length ≠ 0 := Nat.pos_iff_ne_zero.mp hpos
    exact ⟨by simp [progressEventOf, jsFloorPercent, hne],
      Nat.div_le_self 100 md.nominatorGroups.length⟩
  · intro h0
    simp [progressEventOf, jsFloorPercent, h0]

/-- A non-no-op input with three nominator groups and empty target lists. -/
def c4wMd : jobsMetadata :=
  { ending := false
    config := { networkPrefix := 2, nominating := true }
    nominatorGroups := [Nominator.mk "a", Nominator.mk "b", Nominator.mk "c"] }

/-- Chain answers for the C4 witness. -/
def c4wEnv : ChainEnv :=
  { activeEra := 100
    eraErr := none
    lastNominatedEraIndex := 90
    currentTargets := fun _ => [] }

/-- C4 witness: the single emission at a concrete non-no-op input with three
groups (its `progress` evaluates to `floor(100/3) = 33`). -/
theorem progress_event_emission_witness :
    progressEmits (mainScorekeeperJob c4wMd c4wEnv 7) =
      [("jobProgress", progressEventOf c4wMd 7)] :=
  (progress_event_emission c4wMd c4wEnv 7).1 ⟨rfl, rfl, by decide, rfl⟩

/-!  Claim theorems about the query layer. -/

/-- A `try`/`catch` whose handler returns a value never surfaces an
exception. -/
theorem tryCatch_ok {α : Type} (body : Except JsErr α) (handler : JsErr → α) :
    ∃ a, jsTryCatch body handler = Except.ok a := by
  cases body with
  | ok a => exact ⟨a, rfl⟩
  | error e => exact ⟨handler e, rfl⟩

/-- C8: no exported query operation lets an exception escape: on every
environment — including ones where `checkApiConnection` or any underlying
API call throws — each of the twelve exported queries evaluates to an
explicit `Except.ok` result (an error/empty/default sentinel on the failure
paths), never to an uncaught `Except.error`. -/
theorem queries_never_throw (env : ApiEnv) (apiAt : ApiAtEnv)
    (validator stash address : String) (eraIndex : Int) :
    (∃ r, getCommission env validator = Except.ok r) ∧
      (∃ r, getCommissionInEra env apiAt eraIndex validator = Except.ok r) ∧
      (∃ r, getBlocked env validator = Except.ok r) ∧
      (∃ r, getBondedAmount env stash = Except.ok r) ∧
      (∃ r, getControllerFromStash env stash = Except.ok r) ∧
      (∃ r, getRewardDestination env stash = Except.ok r) ∧
      (∃ r, getRewardDestinationAt env apiAt stash = Except.ok r) ∧
      (∃ r, getQueuedKeys env = Except.ok r) ∧
      (∃ r, getNextKeys env stash = Except.ok r) ∧
      (∃ r, getBalance env address = Except.ok r) ∧
      (∃ r, getExposure env eraIndex validator = Except.ok r) ∧
      (∃ r, getExposureAt env apiAt eraIndex validator = Except.ok r) :=
  ⟨tryCatch_ok _ _, tryCatch_ok _ _, tryCatch_ok _ _, tryCatch_ok _ _,
    tryCatch_ok _ _, tryCatch_ok _ _, tryCatch_ok _ _, tryCatch_ok _ _,
    tryCatch_ok _ _, tryCatch_ok _ _, tryCatch_ok _ _, tryCatch_ok _ _⟩

/-- A successful `await` feeds its value to the continuation. -/
theorem except_bind_ok {α β : Type} (a : α) (f : α → Except JsErr β) :
    (Except.ok a >>= f) = f a :=
  rfl

/-- An `await` of a throwing call propagates the exception past the
continuation. -/
theorem except_bind_error {α β : Type} (e : JsErr)
    (f : α → Except JsErr β) :
    ((Except.error e : Except JsErr α) >>= f) = Except.error e :=
  rfl

/-- C9: the partial-data results of `getBondedAmount` and `getCommission`
carry an explicit reason string beside the default value, and successful
reads carry `null` instead: `[0, "Not bonded to any account."]` when the
stash has no bonded account (an absent or `isNone` answer), `[0, "Ledger is
empty."]` when the ledger is absent or `isNone`, `[amount, null]` on
success; `[0, "No preferences found."]` when no validator preferences exist
and `[commission, null]` on success. -/
theorem partial_data_reasons (env : ApiEnv) (stash validator : String)
    (hc : env.checkApiConnection = Except.ok ()) :
    (env.bonded stash = Except.ok none →
        getBondedAmount env stash =
          Except.ok (0, some "Not bonded to any account.")) ∧
      (∀ b, env.bonded stash = Except.ok (some b) → b.isNone = true →
        getBondedAmount env stash =
          Except.ok (0, some "Not bonded to any account.")) ∧
      (∀ b, env.bonded stash = Except.ok (some b) → b.isNone = false →
        env.ledger b.str = Except.ok none →
        getBondedAmount env stash = Except.ok (0, some "Ledger is empty.")) ∧
      (∀ b l, env.bonded stash = Except.ok (some b) → b.isNone = false →
        env.ledger b.str = Except.ok (some l) → l.isNone = true →
        getBondedAmount env stash = Except.ok (0, some "Ledger is empty.")) ∧
      (∀ b l, env.bonded stash = Except.ok (some b) → b.isNone = false →
        env.ledger b.str = Except.ok (some l) → l.isNone = false →
        getBondedAmount env stash = Except.ok (l.active, none)) ∧
      (env.validators validator = Except.ok none →
        getCommission env validator =
          Except.ok (0, some "No preferences found.")) ∧
      (∀ p, env.validators validator = Except.ok (some p) →
        getCommission env validator = Except.ok (p.commission, none)) := by
  refine ⟨?_, ?_, ?_, ?_, ?_, ?_, ?_⟩
  · intro hb
    simp only [getBondedAmount, hc, hb, except_bind_ok]
    rfl
  · intro b hb hn
    simp only [getBondedAmount, hc, hb, except_bind_ok, hn]
    rfl
  · intro b hb hn hl
    simp only [getBondedAmount, hc, hb, except_bind_ok, hn, hl]
    rfl
  · intro b l hb hn hl hln
    simp only [getBondedAmount, hc, hb, except_bind_ok, hn, hl, hln]
    rfl
  · intro b l hb hn hl hln
    simp only [getBondedAmount, hc, hb, except_bind_ok, hn, hl, hln]
    rfl
  · intro hv
    simp only [getCommission, hc, hv, except_bind_ok]
    rfl
  · intro p hv
    simp only [getCommission, hc, hv, except_bind_ok]
    rfl

/-- An environment in which every call succeeds with data. -/
def c9Env : ApiEnv :=
  { checkApiConnection := Except.ok ()
    validators := fun _ =>
      Except.ok (some { commission := 25, blocked := some "false" })
    bonded := fun _ => Except.ok (some { isNone := false, str := "ctrl" })
    ledger := fun _ => Except.ok (some { isNone := false, active := 1000 })
    payee := fun _ => Except.ok (some { account := some "acct", str := "S" })
    queuedKeys := Except.ok none
    nextKeys := fun _ => Except.ok none
    account := fun _ => Except.ok none
    getDenom := Except.ok (some 1)
    erasStakers := fun _ _ => Except.ok none
    parseFloat := fun _ => 0 }

/-- C9 witness: the success pair `[amount, null]` at a concrete bonded
stash. -/
theorem partial_data_reasons_witness :
    getBondedAmount c9Env "stash" = Except.ok (1000, none) :=
  (partial_data_reasons c9Env "stash" "val" rfl).2.2.2.2.1
    { isNone := false, str := "ctrl" } { isNone := false, active := 1000 }
    rfl rfl rfl rfl

/-- `getBlocked` written as one total case analysis over the environment. -/
theorem getBlocked_eq (env : ApiEnv) (v : String) :
    getBlocked env v = Except.ok
      (match env.checkApiConnection with
        | Except.error _ => false
        | Except.ok _ =>
            match env.validators v with
            | Except.error _ => false
            | Except.ok none => false
            | Except.ok (some p) =>
                match p.blocked with
                | none => false
                | some s => s == "true") := by
  rcases hc : env.checkApiConnection with e | u
  · simp only [getBlocked, hc, except_bind_error]
    rfl
  · rcases hv : env.validators v with e | op
    · simp only [getBlocked, hc, except_bind_ok, hv, except_bind_error]
      rfl
    · rcases op with _ | p
      · simp only [getBlocked, hc, except_bind_ok, hv]
        rfl
      · rcases hb : p.blocked with _ | s
        · simp only [getBlocked, hc, except_bind_ok, hv, hb]
          rfl
        · simp only [getBlocked, hc, except_bind_ok, hv, hb]
          rfl

/-- C10: `getBlocked` answers `Except.ok false` on every failure path — a
throwing connection check, a throwing preferences query, or an absent
preferences record — so its caller cannot tell a failed or absent read from
a validator that is genuinely not blocked; and it answers `true` exactly
when the fetched preferences exist and their `blocked` field stringifies to
`"true"`. -/
theorem getBlocked_failure_indistinguishable (env : ApiEnv)
    (validator : String) :
    (∀ e, env.checkApiConnection = Except.error e →
        getBlocked env validator = Except.ok false) ∧
      (∀ e, env.validators validator = Except.error e →
        getBlocked env validator = Except.ok false) ∧
      (env.validators validator = Except.ok none →
        getBlocked env validator = Except.ok false) ∧
      (getBlocked env validator = Except.ok true ↔
        env.checkApiConnection = Except.ok () ∧
          ∃ p, env.validators validator = Except.ok (some p) ∧
            p.blocked = some "true") := by
  refine ⟨?_, ?_, ?_, ?_⟩
  · intro e he
    simp [getBlocked_eq, he]
  · intro e he
    rcases hc : env.checkApiConnection with e' | u
    · simp [getBlocked_eq, hc]
    · simp [getBlocked_eq, hc, he]
  · intro hv
    rcases hc : env.checkApiConnection with e' | u
    · simp [getBlocked_eq, hc]
    · simp [getBlocked_eq, hc, hv]
  · rw [getBlocked_eq]
    constructor
    · intro h
      have h' := Except.ok.inj h
      rcases hc : env.checkApiConnection with e | u
      · rw [hc] at h'
        simp at h'
      · rcases hv : env.validators validator with e | op
        · rw [hc, hv] at h'
          simp at h'
        · rcases op with _ | p
          · rw [hc, hv] at h'
            simp at h'
          · rw [hc, hv] at h'
            simp only [] at h'
            rcases hb : p.blocked with _ | s
            · rw [hb] at h'
              simp at h'
            · rw [hb] at h'
              simp at h'
              exact ⟨by cases u; rfl, p, rfl, by rw [hb, h']⟩
    · rintro ⟨hc, p, hv, hb⟩
      simp [hc, hv, hb]

/-- An environment whose connection check throws. -/
def c10Env : ApiEnv :=
  { checkApiConnection := Except.error { message := "connection down" }
    validators := fun _ => Except.ok none
    bonded := fun _ => Except.ok none
    ledger := fun _ => Except.ok none
    payee := fun _ => Except.ok none
    queuedKeys := Except.ok none
    nextKeys := fun _ => Except.ok none
    account := fun _ => Except.ok none
    getDenom := Except.ok none
    erasStakers := fun _ _ => Except.ok none
    parseFloat := fun _ => 0 }

/-- C10 witness: the caught connection failure answers plain `false`. -/
theorem getBlocked_failure_indistinguishable_witness :
    getBlocked c10Env "val" = Except.ok false :=
  (getBlocked_failure_indistinguishable c10Env "val").1
    { message := "connection down" } rfl
